import Mathlib

/-!
# PitchRegistry — verification of the on-chain score registry

Shallow embedding of `Pitch-registry.sol` (contract `PitchRegistry`):
a write-once store mapping a pitch identifier to a `PitchScoreEntry`,
gated to a single owner fixed at construction, with one
`PitchScoreRecorded` event per successful write.

Modelling conventions:
* `bytes32` and `address` values are opaque: modelled as `Nat`.
  No arithmetic is performed on them, only equality tests and stores,
  so no modular reduction is needed.
* `uint256` scores are modelled as `Nat`: the contract only compares
  them with `0` and stores them, so no overflow can occur.
* The EVM execution environment of one external call is `Env`
  (`msg.sender` and `block.timestamp`).  A transaction executes in a
  block whose timestamp is strictly greater than the genesis block's
  timestamp (block timestamps are strictly increasing and genesis is
  at least 0), so `block.timestamp` is strictly positive in every
  call context; `Env` carries that environment fact as `ts_pos`.
* A Solidity `require` failure reverts the whole call, so a call is
  `Except RegError (State × events)`: an error return means the EVM
  rolls the state back and discards all logs.  `execRecord` makes the
  rollback explicit by returning the observable post-transaction
  state, the emitted log and the optional error.
* The storage `mapping(bytes32 => PitchScoreEntry)` is total with an
  all-zero default value, exactly as in the EVM; the contract encodes
  "a record exists" as `timestamp != 0`.
-/

namespace PitchRegistry

/-- Storage struct `PitchScoreEntry` of the contract: overall score,
four component scores, the ZKP hash, and the store-set metadata
(`timestamp`, `recordedBy`). -/
structure PitchScoreEntry where
  overallScore : Nat
  clarityScore : Nat
  originalityScore : Nat
  teamStrengthScore : Nat
  marketFitScore : Nat
  zkpHash : Nat
  timestamp : Nat
  recordedBy : Nat
deriving DecidableEq, Repr

/-- The all-zero entry: the EVM default value of an unwritten mapping
slot. -/
def PitchScoreEntry.zero : PitchScoreEntry :=
  { overallScore := 0, clarityScore := 0, originalityScore := 0,
    teamStrengthScore := 0, marketFitScore := 0, zkpHash := 0,
    timestamp := 0, recordedBy := 0 }

/-- Contract storage: the `owner` address set by the constructor and
the `pitchScores` mapping (total, zero-defaulted, as on the EVM). -/
structure RegistryState where
  owner : Nat
  pitchScores : Nat → PitchScoreEntry

/-- The contract's failure taxonomy, one case per distinct `require`
message plus the read-path failure. -/
inductive RegError where
  /-- `"Only owner can call this function"` (modifier `onlyOwner`). -/
  | Unauthorized
  /-- `"Pitch score already recorded for this ID"`. -/
  | DuplicateEntry
  /-- `"Overall score must be positive"`. -/
  | InvalidScore
  /-- `"Pitch score not found for this ID"`. -/
  | NotFound
deriving DecidableEq, Repr

/-- Event `PitchScoreRecorded(pitchId, overallScore, zkpHash,
timestamp, recordedBy)`. -/
structure PitchScoreRecorded where
  pitchId : Nat
  overallScore : Nat
  zkpHash : Nat
  timestamp : Nat
  recordedBy : Nat
deriving DecidableEq, Repr

/-- EVM call environment: `msg.sender` and `block.timestamp`.
`ts_pos` records the environment guarantee that a transaction runs in
a block with a strictly positive timestamp (timestamps strictly
increase from the genesis block). -/
structure Env where
  sender : Nat
  timestamp : Nat
  ts_pos : 0 < timestamp

/-- The constructor: `owner = msg.sender`; the mapping starts with the
EVM all-zero default in every slot.  It runs exactly once, at
deployment: every reachability relation below starts from it and no
other operation can re-run it. -/
def constructorRun (sender : Nat) : RegistryState :=
  { owner := sender, pitchScores := fun _ => PitchScoreEntry.zero }

/-- `recordPitchScore`: the only mutating external function.
Checks, in source order, (1) the `onlyOwner` modifier
(`msg.sender == owner`), (2) `pitchScores[_pitchId].timestamp == 0`,
(3) `_overallScore > 0`; then stores the new entry (with
`timestamp = block.timestamp`, `recordedBy = msg.sender`) and emits
one `PitchScoreRecorded` event. -/
def recordPitchScore (s : RegistryState) (e : Env)
    (pitchId overallScore clarityScore originalityScore
     teamStrengthScore marketFitScore zkpHash : Nat) :
    Except RegError (RegistryState × List PitchScoreRecorded) :=
  if e.sender = s.owner then
    if (s.pitchScores pitchId).timestamp = 0 then
      if 0 < overallScore then
        Except.ok
          ({ s with
              pitchScores := Function.update s.pitchScores pitchId
                { overallScore := overallScore,
                  clarityScore := clarityScore,
                  originalityScore := originalityScore,
                  teamStrengthScore := teamStrengthScore,
                  marketFitScore := marketFitScore,
                  zkpHash := zkpHash,
                  timestamp := e.timestamp,
                  recordedBy := e.sender } },
           [{ pitchId := pitchId, overallScore := overallScore,
              zkpHash := zkpHash, timestamp := e.timestamp,
              recordedBy := e.sender }])
      else Except.error RegError.InvalidScore
    else Except.error RegError.DuplicateEntry
  else Except.error RegError.Unauthorized

/-- `getPitchScore`: view function; requires `entry.timestamp != 0`
and returns all fields of the stored entry (the Solidity function
returns them as an 8-tuple in declaration order, which is exactly the
content of the `PitchScoreEntry`).  It takes no caller identity and
reads only `pitchScores`. -/
def getPitchScore (s : RegistryState) (pitchId : Nat) :
    Except RegError PitchScoreEntry :=
  if (s.pitchScores pitchId).timestamp ≠ 0 then
    Except.ok (s.pitchScores pitchId)
  else Except.error RegError.NotFound

/-- The auto-generated public getter of `mapping(bytes32 =>
PitchScoreEntry) public pitchScores`: total, never reverts, returns
the raw slot value (the all-zero default for an unwritten id). -/
def pitchScoresGetter (s : RegistryState) (pitchId : Nat) : PitchScoreEntry :=
  s.pitchScores pitchId

/-- Observable outcome of one `recordPitchScore` transaction: on a
`require` failure the EVM reverts, so the persisted state is the
pre-state and the log is empty; on success the new state and the
emitted events stand. -/
def execRecord (s : RegistryState) (e : Env)
    (pitchId overallScore clarityScore originalityScore
     teamStrengthScore marketFitScore zkpHash : Nat) :
    RegistryState × List PitchScoreRecorded × Option RegError :=
  match recordPitchScore s e pitchId overallScore clarityScore
      originalityScore teamStrengthScore marketFitScore zkpHash with
  | Except.ok (s1, evs) => (s1, evs, none)
  | Except.error err => (s, [], some err)

/-- `Steps s t`: state `t` is reachable from state `s` by a sequence
of successful `recordPitchScore` transactions (the only mutating
operation of the contract; failed transactions revert and do not
change state, and `getPitchScore` is a view). -/
inductive Steps : RegistryState → RegistryState → Prop where
  | refl (s : RegistryState) : Steps s s
  | record {s t t' : RegistryState} (e : Env)
      (pitchId overallScore clarityScore originalityScore
       teamStrengthScore marketFitScore zkpHash : Nat)
      (evs : List PitchScoreRecorded) :
      Steps s t →
      recordPitchScore t e pitchId overallScore clarityScore
        originalityScore teamStrengthScore marketFitScore zkpHash =
        Except.ok (t', evs) →
      Steps s t'

/-- `RunReach deployer s log`: the contract, deployed by `deployer`,
can be in state `s` with `log` the concatenation of all events emitted
so far.  The constructor runs exactly once, at the root of the
derivation; afterwards only successful `recordPitchScore` transactions
change state (reverted calls leave state and log untouched). -/
inductive RunReach (deployer : Nat) :
    RegistryState → List PitchScoreRecorded → Prop where
  | init : RunReach deployer (constructorRun deployer) []
  | record {s : RegistryState} {log : List PitchScoreRecorded} (e : Env)
      (pitchId overallScore clarityScore originalityScore
       teamStrengthScore marketFitScore zkpHash : Nat)
      {s' : RegistryState} {evs : List PitchScoreRecorded} :
      RunReach deployer s log →
      recordPitchScore s e pitchId overallScore clarityScore
        originalityScore teamStrengthScore marketFitScore zkpHash =
        Except.ok (s', evs) →
      RunReach deployer s' (log ++ evs)

/-! ## Sample run used by the witnesses -/

/-- Deployer / authorized writer of the sample run. -/
def e1 : Env := ⟨1, 10, by decide⟩

/-- Sample initial state: deployed by address `1`. -/
def s0 : RegistryState := constructorRun 1

/-- The entry stored by the sample write (Scenario A of the spec:
overall 80, components 20/18/22/20, proof hash 99, at time 10 by
address 1). -/
def sampleEntry : PitchScoreEntry :=
  { overallScore := 80, clarityScore := 20, originalityScore := 18,
    teamStrengthScore := 22, marketFitScore := 20, zkpHash := 99,
    timestamp := 10, recordedBy := 1 }

/-- State after the sample write of pitch id `5`. -/
def sampleS1 : RegistryState :=
  { s0 with pitchScores := Function.update s0.pitchScores 5 sampleEntry }

/-- Event emitted by the sample write. -/
def ev1 : PitchScoreRecorded :=
  { pitchId := 5, overallScore := 80, zkpHash := 99,
    timestamp := 10, recordedBy := 1 }

theorem sample_ok :
    recordPitchScore s0 e1 5 80 20 18 22 20 99 =
      Except.ok (sampleS1, [ev1]) := rfl

theorem sample_reach : RunReach 1 sampleS1 [ev1] :=
  RunReach.record e1 5 80 20 18 22 20 99 RunReach.init sample_ok

/-! ## Inversion of a successful write -/

/-- A successful `recordPitchScore` passed all three checks, stored
exactly the caller's payload (with `timestamp`/`recordedBy` set from
the environment) at `pitchId`, and emitted exactly one event. -/
theorem recordPitchScore_ok {s : RegistryState} {e : Env}
    {pid os cs og tsc ms zh : Nat} {s' : RegistryState}
    {evs : List PitchScoreRecorded}
    (h : recordPitchScore s e pid os cs og tsc ms zh =
      Except.ok (s', evs)) :
    e.sender = s.owner ∧ (s.pitchScores pid).timestamp = 0 ∧ 0 < os ∧
    s' = { s with
            pitchScores := Function.update s.pitchScores pid
              { overallScore := os, clarityScore := cs,
                originalityScore := og, teamStrengthScore := tsc,
                marketFitScore := ms, zkpHash := zh,
                timestamp := e.timestamp, recordedBy := e.sender } } ∧
    evs = [{ pitchId := pid, overallScore := os, zkpHash := zh,
             timestamp := e.timestamp, recordedBy := e.sender }] := by
  unfold recordPitchScore at h
  split at h
  · split at h
    · split at h
      · refine ⟨by assumption, by assumption, by assumption, ?_, ?_⟩
        · exact (Prod.mk.injEq _ _ _ _ ▸ Except.ok.inj h).1.symm
        · exact (Prod.mk.injEq _ _ _ _ ▸ Except.ok.inj h).2.symm
      · exact absurd h (by simp)
    · exact absurd h (by simp)
  · exact absurd h (by simp)

/-- Successful writes do not touch `owner`. -/
theorem recordPitchScore_owner {s : RegistryState} {e : Env}
    {pid os cs og tsc ms zh : Nat} {s' : RegistryState}
    {evs : List PitchScoreRecorded}
    (h : recordPitchScore s e pid os cs og tsc ms zh =
      Except.ok (s', evs)) :
    s'.owner = s.owner := by
  rcases recordPitchScore_ok h with ⟨-, -, -, hs, -⟩
  subst hs; rfl

/-- The entry a successful write leaves at its own `pitchId`. -/
theorem recordPitchScore_entry {s : RegistryState} {e : Env}
    {pid os cs og tsc ms zh : Nat} {s' : RegistryState}
    {evs : List PitchScoreRecorded}
    (h : recordPitchScore s e pid os cs og tsc ms zh =
      Except.ok (s', evs)) :
    s'.pitchScores pid =
      { overallScore := os, clarityScore := cs, originalityScore := og,
        teamStrengthScore := tsc, marketFitScore := ms, zkpHash := zh,
        timestamp := e.timestamp, recordedBy := e.sender } := by
  rcases recordPitchScore_ok h with ⟨-, -, -, hs, -⟩
  subst hs
  exact Function.update_same pid _ s.pitchScores

/-- A successful write leaves every other slot unchanged. -/
theorem recordPitchScore_other {s : RegistryState} {e : Env}
    {pid os cs og tsc ms zh : Nat} {s' : RegistryState}
    {evs : List PitchScoreRecorded} {pid' : Nat}
    (h : recordPitchScore s e pid os cs og tsc ms zh =
      Except.ok (s', evs))
    (hne : pid' ≠ pid) :
    s'.pitchScores pid' = s.pitchScores pid' := by
  rcases recordPitchScore_ok h with ⟨-, -, -, hs, -⟩
  subst hs
  exact Function.update_noteq hne _ s.pitchScores

/-! ## Persistence along later transactions -/

/-- `Steps` preserves `owner`. -/
theorem Steps.preserves_owner {s t : RegistryState} (h : Steps s t) :
    t.owner = s.owner := by
  induction h with
  | refl => rfl
  | record e pid os cs og tsc ms zh evs hsteps hok ih =>
      exact (recordPitchScore_owner hok).trans ih

/-- Once a slot holds an entry with a nonzero `timestamp`, no later
transaction can change it: the duplicate check blocks every further
write to that `pitchId`. -/
theorem Steps.written_frozen {s t : RegistryState} {pid : Nat}
    (hw : (s.pitchScores pid).timestamp ≠ 0) (h : Steps s t) :
    t.pitchScores pid = s.pitchScores pid := by
  induction h with
  | refl => rfl
  | record e pid' os cs og tsc ms zh evs hsteps hok ih =>
      rcases recordPitchScore_ok hok with ⟨-, hfresh, -, hs, -⟩
      by_cases hpid : pid = pid'
      · subst hpid
        rw [ih] at hfresh
        exact absurd hfresh hw
      · subst hs
        exact (Function.update_noteq hpid _ _).trans ih

/-! ## Invariants of every reachable state -/

/-- `owner` never changes after construction: in every reachable
state it is still the deployer. -/
theorem RunReach.owner_fixed {d : Nat} {s : RegistryState}
    {log : List PitchScoreRecorded} (h : RunReach d s log) :
    s.owner = d := by
  induction h with
  | init => rfl
  | record e pid os cs og tsc ms zh hr hok ih =>
      exact (recordPitchScore_owner hok).trans ih

/-- Slot invariant of every reachable state: each slot is either
still the all-zero default, or holds a written record — one with a
strictly positive `overallScore`, a nonzero `timestamp`,
`recordedBy` equal to the deployer, and a matching event in the
log. -/
theorem RunReach.slot_inv {d : Nat} {s : RegistryState}
    {log : List PitchScoreRecorded} (h : RunReach d s log)
    (pid : Nat) :
    s.pitchScores pid = PitchScoreEntry.zero ∨
    (0 < (s.pitchScores pid).overallScore ∧
     (s.pitchScores pid).timestamp ≠ 0 ∧
     (s.pitchScores pid).recordedBy = d ∧
     ∃ ev ∈ log, ev.pitchId = pid) := by
  induction h with
  | init => exact Or.inl rfl
  | record e pid' os cs og tsc ms zh hr hok ih =>
      rcases recordPitchScore_ok hok with ⟨hsender, hfresh, hpos, hs, hevs⟩
      by_cases hpid : pid = pid'
      · subst hpid
        refine Or.inr ?_
        have hentry := recordPitchScore_entry hok
        rw [hentry]
        refine ⟨hpos, Nat.pos_iff_ne_zero.mp e.ts_pos,
          hsender.trans hr.owner_fixed, ?_⟩
        refine ⟨PitchScoreRecorded.mk pid os zh e.timestamp e.sender, ?_, rfl⟩
        rw [hevs]
        simp
      · have hother := recordPitchScore_other hok hpid
        rw [hother]
        rcases ih with hzero | ⟨h1, h2, h3, ev, hev, hevpid⟩
        · exact Or.inl hzero
        · exact Or.inr ⟨h1, h2, h3, ev, List.mem_append_left _ hev, hevpid⟩

/-! ## The three failure branches of `recordPitchScore` -/

/-- A caller other than `owner` is stopped by the `onlyOwner` modifier
before anything else is looked at. -/
theorem recordPitchScore_unauthorized {s : RegistryState} {e : Env}
    {pid os cs og tsc ms zh : Nat} (h : e.sender ≠ s.owner) :
    recordPitchScore s e pid os cs og tsc ms zh =
      Except.error RegError.Unauthorized := by
  unfold recordPitchScore
  rw [if_neg h]

/-- An authorized write to an already-written slot is stopped by the
duplicate check, whatever the rest of the payload is. -/
theorem recordPitchScore_duplicate {s : RegistryState} {e : Env}
    {pid os cs og tsc ms zh : Nat} (h1 : e.sender = s.owner)
    (h2 : (s.pitchScores pid).timestamp ≠ 0) :
    recordPitchScore s e pid os cs og tsc ms zh =
      Except.error RegError.DuplicateEntry := by
  unfold recordPitchScore
  rw [if_pos h1, if_neg h2]

/-- An authorized, fresh write with `overallScore = 0` is stopped by
the positivity check. -/
theorem recordPitchScore_invalid {s : RegistryState} {e : Env}
    {pid cs og tsc ms zh : Nat} (h1 : e.sender = s.owner)
    (h2 : (s.pitchScores pid).timestamp = 0) :
    recordPitchScore s e pid 0 cs og tsc ms zh =
      Except.error RegError.InvalidScore := by
  unfold recordPitchScore
  rw [if_pos h1, if_pos h2, if_neg (Nat.lt_irrefl 0)]

/-! ## Claims -/

/-- Claim C1 (write-once): once a `recordPitchScore` call for `pid`
has succeeded, the stored record survives any sequence of later
transactions unchanged, and every later `recordPitchScore` call for
the same `pid` — whatever payload it carries — can never succeed, the
failure being `DuplicateEntry` whenever the caller is the authorized
writer (an unauthorized caller is already stopped by the earlier
`onlyOwner` check, per claim C4). -/
theorem C1_write_once
    (s : RegistryState) (e : Env) (pid os cs og tsc ms zh : Nat)
    (s1 : RegistryState) (evs : List PitchScoreRecorded)
    (hok : recordPitchScore s e pid os cs og tsc ms zh =
      Except.ok (s1, evs))
    (t : RegistryState) (hsteps : Steps s1 t) :
    t.pitchScores pid = s1.pitchScores pid ∧
    ∀ (e' : Env) (os' cs' og' tsc' ms' zh' : Nat),
      (∀ r, recordPitchScore t e' pid os' cs' og' tsc' ms' zh' ≠
        Except.ok r) ∧
      (e'.sender = s.owner →
        recordPitchScore t e' pid os' cs' og' tsc' ms' zh' =
          Except.error RegError.DuplicateEntry) := by
  have hentry := recordPitchScore_entry hok
  have hts : (s1.pitchScores pid).timestamp ≠ 0 := by
    rw [hentry]
    exact Nat.pos_iff_ne_zero.mp e.ts_pos
  have hfrozen := Steps.written_frozen hts hsteps
  have htts : (t.pitchScores pid).timestamp ≠ 0 := by
    rw [hfrozen]; exact hts
  have howner : t.owner = s.owner :=
    hsteps.preserves_owner.trans (recordPitchScore_owner hok)
  refine ⟨hfrozen, fun e' os' cs' og' tsc' ms' zh' => ⟨?_, ?_⟩⟩
  · intro r hr
    by_cases hsend : e'.sender = t.owner
    · rw [recordPitchScore_duplicate hsend htts] at hr
      exact Except.noConfusion hr
    · rw [recordPitchScore_unauthorized hsend] at hr
      exact Except.noConfusion hr
  · intro hsend
    exact recordPitchScore_duplicate (howner ▸ hsend) htts

theorem C1_write_once_witness :
    recordPitchScore sampleS1 (Env.mk 1 11 (by decide)) 5 33 1 1 1 1 44 =
      Except.error RegError.DuplicateEntry :=
  ((C1_write_once s0 e1 5 80 20 18 22 20 99 sampleS1 [ev1] sample_ok
      sampleS1 (Steps.refl sampleS1)).2 (Env.mk 1 11 (by decide))
      33 1 1 1 1 44).2 rfl

/-- Claim C2 (authorization): any call whose `msg.sender` differs from
the owner fixed at construction fails with `Unauthorized`; the
observable transaction outcome is the unchanged pre-state with an
empty log. -/
theorem C2_unauthorized_write
    (s : RegistryState) (e : Env) (pid os cs og tsc ms zh : Nat)
    (hne : e.sender ≠ s.owner) :
    recordPitchScore s e pid os cs og tsc ms zh =
      Except.error RegError.Unauthorized ∧
    execRecord s e pid os cs og tsc ms zh =
      (s, [], some RegError.Unauthorized) := by
  have h := @recordPitchScore_unauthorized s e pid os cs og tsc ms zh hne
  exact ⟨h, by simp only [execRecord, h]⟩

theorem C2_unauthorized_write_witness :
    recordPitchScore s0 (Env.mk 2 11 (by decide)) 7 80 1 1 1 1 9 =
      Except.error RegError.Unauthorized ∧
    execRecord s0 (Env.mk 2 11 (by decide)) 7 80 1 1 1 1 9 =
      (s0, [], some RegError.Unauthorized) :=
  C2_unauthorized_write s0 (Env.mk 2 11 (by decide)) 7 80 1 1 1 1 9
    (by decide)

/-- Claim C3 (atomicity): a call that fails any precondition —
authorization, freshness of the slot, or score positivity — reverts:
the observable post-state is exactly the pre-state and the log of the
transaction is empty; only the error kind comes out. -/
theorem C3_atomic_failure
    (s : RegistryState) (e : Env) (pid os cs og tsc ms zh : Nat)
    (hfail : ¬ (e.sender = s.owner ∧
      (s.pitchScores pid).timestamp = 0 ∧ 0 < os)) :
    ∃ err : RegError,
      recordPitchScore s e pid os cs og tsc ms zh =
        Except.error err ∧
      execRecord s e pid os cs og tsc ms zh = (s, [], some err) := by
  by_cases h1 : e.sender = s.owner
  · by_cases h2 : (s.pitchScores pid).timestamp = 0
    · by_cases h3 : 0 < os
      · exact absurd ⟨h1, h2, h3⟩ hfail
      · have hos : os = 0 := Nat.eq_zero_of_not_pos h3
        subst hos
        have h := @recordPitchScore_invalid s e pid cs og tsc ms zh h1 h2
        exact ⟨_, h, by simp only [execRecord, h]⟩
    · have h := @recordPitchScore_duplicate s e pid os cs og tsc ms zh h1 h2
      exact ⟨_, h, by simp only [execRecord, h]⟩
  · have h := @recordPitchScore_unauthorized s e pid os cs og tsc ms zh h1
    exact ⟨_, h, by simp only [execRecord, h]⟩

theorem C3_atomic_failure_witness :
    ∃ err : RegError,
      recordPitchScore s0 (Env.mk 2 11 (by decide)) 7 80 1 1 1 1 9 =
        Except.error err ∧
      execRecord s0 (Env.mk 2 11 (by decide)) 7 80 1 1 1 1 9 =
        (s0, [], some err) :=
  C3_atomic_failure s0 (Env.mk 2 11 (by decide)) 7 80 1 1 1 1 9
    (by decide)

/-- Claim C4 (precondition order): the three checks run in the fixed
source order — `onlyOwner`, then the duplicate check, then the
positivity check — and the reported error is that of the first
failing check: an unauthorized caller gets `Unauthorized` whatever
the slot looks like; an authorized caller hitting a written slot gets
`DuplicateEntry` even with `overallScore = 0`; an authorized caller
on a fresh slot with `overallScore = 0` gets `InvalidScore`. -/
theorem C4_check_order :
    (∀ (s : RegistryState) (e : Env) (pid os cs og tsc ms zh : Nat),
       e.sender ≠ s.owner →
       recordPitchScore s e pid os cs og tsc ms zh =
         Except.error RegError.Unauthorized) ∧
    (∀ (s : RegistryState) (e : Env) (pid os cs og tsc ms zh : Nat),
       e.sender = s.owner → (s.pitchScores pid).timestamp ≠ 0 →
       recordPitchScore s e pid os cs og tsc ms zh =
         Except.error RegError.DuplicateEntry) ∧
    (∀ (s : RegistryState) (e : Env) (pid cs og tsc ms zh : Nat),
       e.sender = s.owner → (s.pitchScores pid).timestamp = 0 →
       recordPitchScore s e pid 0 cs og tsc ms zh =
         Except.error RegError.InvalidScore) :=
  ⟨fun _ _ _ _ _ _ _ _ _ h => recordPitchScore_unauthorized h,
   fun _ _ _ _ _ _ _ _ _ h1 h2 => recordPitchScore_duplicate h1 h2,
   fun _ _ _ _ _ _ _ _ h1 h2 => recordPitchScore_invalid h1 h2⟩

theorem C4_check_order_witness :
    recordPitchScore sampleS1 (Env.mk 2 11 (by decide)) 5 0 1 1 1 1 9 =
      Except.error RegError.Unauthorized ∧
    recordPitchScore sampleS1 (Env.mk 1 11 (by decide)) 5 0 1 1 1 1 9 =
      Except.error RegError.DuplicateEntry ∧
    recordPitchScore sampleS1 (Env.mk 1 11 (by decide)) 7 0 1 1 1 1 9 =
      Except.error RegError.InvalidScore :=
  ⟨C4_check_order.1 sampleS1 (Env.mk 2 11 (by decide)) 5 0 1 1 1 1 9
      (by decide),
   C4_check_order.2.1 sampleS1 (Env.mk 1 11 (by decide)) 5 0 1 1 1 1 9
      (by decide) (by decide),
   C4_check_order.2.2 sampleS1 (Env.mk 1 11 (by decide)) 7 1 1 1 1 9
      (by decide) (by decide)⟩

/-- Claim C5 (positivity): a call with `overallScore = 0` can never
succeed — the transaction always reverts with some error, leaving the
state unchanged and the log empty — and when it is the positivity
check that is reached (authorized caller, fresh slot) the error is
`InvalidScore`; consequently in every reachable state every existing
record (nonzero `timestamp`) has a strictly positive
`overallScore`. -/
theorem C5_positivity :
    (∀ (s : RegistryState) (e : Env) (pid cs og tsc ms zh : Nat),
       (∀ r, recordPitchScore s e pid 0 cs og tsc ms zh ≠
         Except.ok r) ∧
       (∃ err : RegError,
         execRecord s e pid 0 cs og tsc ms zh = (s, [], some err)) ∧
       (e.sender = s.owner → (s.pitchScores pid).timestamp = 0 →
         recordPitchScore s e pid 0 cs og tsc ms zh =
           Except.error RegError.InvalidScore)) ∧
    (∀ (d : Nat) (s : RegistryState) (log : List PitchScoreRecorded),
       RunReach d s log → ∀ pid : Nat,
       (s.pitchScores pid).timestamp ≠ 0 →
       0 < (s.pitchScores pid).overallScore) := by
  constructor
  · intro s e pid cs og tsc ms zh
    have hnotok : ∀ r, recordPitchScore s e pid 0 cs og tsc ms zh ≠
        Except.ok r := by
      rintro ⟨s', evs⟩ h
      exact absurd (recordPitchScore_ok h).2.2.1 (Nat.lt_irrefl 0)
    refine ⟨hnotok, ?_, fun h1 h2 => recordPitchScore_invalid h1 h2⟩
    cases hres : recordPitchScore s e pid 0 cs og tsc ms zh with
    | ok r => exact absurd hres (hnotok r)
    | error err => exact ⟨err, by simp only [execRecord, hres]⟩
  · intro d s log h pid hts
    rcases h.slot_inv pid with hzero | ⟨hpos, -, -, -⟩
    · rw [hzero] at hts
      exact absurd rfl hts
    · exact hpos

theorem C5_positivity_witness :
    recordPitchScore s0 e1 9 0 1 1 1 1 2 =
      Except.error RegError.InvalidScore ∧
    0 < (sampleS1.pitchScores 5).overallScore :=
  ⟨(C5_positivity.1 s0 e1 9 1 1 1 1 2).2.2 rfl rfl,
   C5_positivity.2 1 sampleS1 [ev1] sample_reach 5 (by decide)⟩

/-- Claim C6 (read consistency): before any successful write for an
id (no event for it in the run's log), `getPitchScore` fails with
`NotFound`; after a successful write, and through any sequence of
later transactions, it returns exactly the payload of that write
together with the store-set `timestamp` (`recordedAt`) and
`recordedBy`; and it needs no authorization — its result is
independent of `owner` (being a Lean function of the state, it also
cannot mutate anything). -/
theorem C6_read_consistency :
    (∀ (d : Nat) (s : RegistryState) (log : List PitchScoreRecorded)
       (pid : Nat), RunReach d s log →
       (∀ ev ∈ log, ev.pitchId ≠ pid) →
       getPitchScore s pid = Except.error RegError.NotFound) ∧
    (∀ (s : RegistryState) (e : Env) (pid os cs og tsc ms zh : Nat)
       (s1 t : RegistryState) (evs : List PitchScoreRecorded),
       recordPitchScore s e pid os cs og tsc ms zh =
         Except.ok (s1, evs) →
       Steps s1 t →
       getPitchScore t pid = Except.ok
         { overallScore := os, clarityScore := cs,
           originalityScore := og, teamStrengthScore := tsc,
           marketFitScore := ms, zkpHash := zh,
           timestamp := e.timestamp, recordedBy := e.sender }) ∧
    (∀ (s : RegistryState) (o pid : Nat),
       getPitchScore { s with owner := o } pid = getPitchScore s pid) := by
  refine ⟨?_, ?_, fun s o pid => rfl⟩
  · intro d s log pid h hno
    have hts : (s.pitchScores pid).timestamp = 0 := by
      rcases h.slot_inv pid with hzero | ⟨-, -, -, ev, hev, hevpid⟩
      · rw [hzero]
        rfl
      · exact absurd hevpid (hno ev hev)
    unfold getPitchScore
    rw [hts]
    simp
  · intro s e pid os cs og tsc ms zh s1 t evs hok hsteps
    have hentry := recordPitchScore_entry hok
    have hts : (s1.pitchScores pid).timestamp ≠ 0 := by
      rw [hentry]
      exact Nat.pos_iff_ne_zero.mp e.ts_pos
    have h2 : t.pitchScores pid = s1.pitchScores pid :=
      Steps.written_frozen hts hsteps
    have hts' : (t.pitchScores pid).timestamp ≠ 0 := by
      rw [h2]; exact hts
    unfold getPitchScore
    rw [if_pos hts', h2, hentry]

theorem C6_read_consistency_witness :
    getPitchScore s0 5 = Except.error RegError.NotFound ∧
    getPitchScore sampleS1 5 = Except.ok sampleEntry ∧
    getPitchScore { s0 with owner := 4 } 9 = getPitchScore s0 9 :=
  ⟨C6_read_consistency.1 1 s0 [] 5 RunReach.init (by simp),
   C6_read_consistency.2.1 s0 e1 5 80 20 18 22 20 99 sampleS1 sampleS1
     [ev1] sample_ok (Steps.refl sampleS1),
   C6_read_consistency.2.2 s0 4 9⟩

/-- Claim C7 (notification correspondence): a successful
`recordPitchScore` emits exactly one event, and each of its fields
(`pitchId`, `overallScore`, `zkpHash`, `timestamp`, `recordedBy`)
equals the corresponding field persisted at `pitchId` by that same
call; a failed call reverts with an empty log. -/
theorem C7_notification :
    (∀ (s : RegistryState) (e : Env) (pid os cs og tsc ms zh : Nat)
       (s1 : RegistryState) (evs : List PitchScoreRecorded),
       recordPitchScore s e pid os cs og tsc ms zh =
         Except.ok (s1, evs) →
       ∃ ev : PitchScoreRecorded, evs = [ev] ∧
         ev.pitchId = pid ∧
         ev.overallScore = (s1.pitchScores pid).overallScore ∧
         ev.zkpHash = (s1.pitchScores pid).zkpHash ∧
         ev.timestamp = (s1.pitchScores pid).timestamp ∧
         ev.recordedBy = (s1.pitchScores pid).recordedBy) ∧
    (∀ (s : RegistryState) (e : Env) (pid os cs og tsc ms zh : Nat)
       (err : RegError),
       recordPitchScore s e pid os cs og tsc ms zh =
         Except.error err →
       execRecord s e pid os cs og tsc ms zh = (s, [], some err)) := by
  constructor
  · intro s e pid os cs og tsc ms zh s1 evs hok
    have hentry := recordPitchScore_entry hok
    rcases recordPitchScore_ok hok with ⟨-, -, -, -, hevs⟩
    refine ⟨PitchScoreRecorded.mk pid os zh e.timestamp e.sender,
      hevs, rfl, ?_, ?_, ?_, ?_⟩ <;> rw [hentry]
  · intro s e pid os cs og tsc ms zh err herr
    simp only [execRecord, herr]

theorem C7_notification_witness :
    (∃ ev : PitchScoreRecorded, [ev1] = [ev] ∧
       ev.pitchId = 5 ∧
       ev.overallScore = (sampleS1.pitchScores 5).overallScore ∧
       ev.zkpHash = (sampleS1.pitchScores 5).zkpHash ∧
       ev.timestamp = (sampleS1.pitchScores 5).timestamp ∧
       ev.recordedBy = (sampleS1.pitchScores 5).recordedBy) ∧
    execRecord s0 (Env.mk 2 11 (by decide)) 7 80 1 1 1 1 9 =
      (s0, [], some RegError.Unauthorized) :=
  ⟨C7_notification.1 s0 e1 5 80 20 18 22 20 99 sampleS1 [ev1] sample_ok,
   C7_notification.2 s0 (Env.mk 2 11 (by decide)) 7 80 1 1 1 1 9
     RegError.Unauthorized (recordPitchScore_unauthorized (by decide))⟩

/-- Claim C8 (fixed trust root): `owner` is set exactly once, by the
constructor at the root of every run — in every reachable state it
still equals the deployer — and neither public operation can change
it: a successful `recordPitchScore` preserves it, a reverted one
leaves the whole state untouched, and `getPitchScore`, a view, takes
and returns no state at all.  No re-initialization, transfer or
revocation path exists: the step relations list every operation the
contract exposes. -/
theorem C8_fixed_owner :
    (∀ (d : Nat) (s : RegistryState) (log : List PitchScoreRecorded),
       RunReach d s log → s.owner = d) ∧
    (∀ (s : RegistryState) (e : Env) (pid os cs og tsc ms zh : Nat)
       (s' : RegistryState) (evs : List PitchScoreRecorded),
       recordPitchScore s e pid os cs og tsc ms zh =
         Except.ok (s', evs) →
       s'.owner = s.owner) ∧
    (∀ (s : RegistryState) (e : Env) (pid os cs og tsc ms zh : Nat),
       (execRecord s e pid os cs og tsc ms zh).1.owner = s.owner) := by
  refine ⟨fun d s log h => h.owner_fixed,
    fun s e pid os cs og tsc ms zh s' evs h =>
      recordPitchScore_owner h,
    fun s e pid os cs og tsc ms zh => ?_⟩
  cases hres : recordPitchScore s e pid os cs og tsc ms zh with
  | ok r =>
      obtain ⟨s', evs⟩ := r
      simp only [execRecord, hres]
      exact recordPitchScore_owner hres
  | error err =>
      simp only [execRecord, hres]

theorem C8_fixed_owner_witness :
    sampleS1.owner = 1 ∧
    (execRecord s0 e1 5 80 20 18 22 20 99).1.owner = s0.owner :=
  ⟨C8_fixed_owner.1 1 sampleS1 [ev1] sample_reach,
   C8_fixed_owner.2.2 s0 e1 5 80 20 18 22 20 99⟩

/-- Claim C9 (implicit): in every reachable state, every existing
record (nonzero `timestamp`) was necessarily written through the
`onlyOwner` gate, so its `recordedBy` equals the single owner fixed
at construction — the store never attributes a record to any other
identity. -/
theorem C9_recordedBy_owner
    (d : Nat) (s : RegistryState) (log : List PitchScoreRecorded)
    (h : RunReach d s log) (pid : Nat)
    (hex : (s.pitchScores pid).timestamp ≠ 0) :
    (s.pitchScores pid).recordedBy = d := by
  rcases h.slot_inv pid with hzero | ⟨-, -, hby, -⟩
  · rw [hzero] at hex
    exact absurd rfl hex
  · exact hby

theorem C9_recordedBy_owner_witness :
    (sampleS1.pitchScores 5).recordedBy = 1 :=
  C9_recordedBy_owner 1 sampleS1 [ev1] sample_reach 5 (by decide)

/-- Claim C10 (implicit): the auto-generated getter of the public
`pitchScores` mapping is a second read path that never reverts — its
result type is a bare `PitchScoreEntry`, so there is no `NotFound`
case — and on every id with no recorded entry (no event for it in the
run's log) it returns the all-zero entry: all five scores `0`, zero
`zkpHash`, zero `timestamp`, zero `recordedBy` address — a value of
exactly the same shape as a real record. -/
theorem C10_getter_default
    (d : Nat) (s : RegistryState) (log : List PitchScoreRecorded)
    (h : RunReach d s log) (pid : Nat)
    (hno : ∀ ev ∈ log, ev.pitchId ≠ pid) :
    pitchScoresGetter s pid = PitchScoreEntry.zero ∧
    (pitchScoresGetter s pid).overallScore = 0 ∧
    (pitchScoresGetter s pid).clarityScore = 0 ∧
    (pitchScoresGetter s pid).originalityScore = 0 ∧
    (pitchScoresGetter s pid).teamStrengthScore = 0 ∧
    (pitchScoresGetter s pid).marketFitScore = 0 ∧
    (pitchScoresGetter s pid).zkpHash = 0 ∧
    (pitchScoresGetter s pid).timestamp = 0 ∧
    (pitchScoresGetter s pid).recordedBy = 0 := by
  have hzero : pitchScoresGetter s pid = PitchScoreEntry.zero := by
    rcases h.slot_inv pid with hz | ⟨-, -, -, ev, hev, hevpid⟩
    · exact hz
    · exact absurd hevpid (hno ev hev)
  rw [hzero]
  exact ⟨rfl, rfl, rfl, rfl, rfl, rfl, rfl, rfl, rfl⟩

theorem C10_getter_default_witness :
    pitchScoresGetter s0 5 = PitchScoreEntry.zero :=
  (C10_getter_default 1 s0 [] RunReach.init 5 (by simp)).1

end PitchRegistry
